import Mathlib

/- Verification of the Nintendo DS slope interpolator (slope.h) and of the
   capture harness around it (main.cpp), shallowly embedded over ℤ and ℕ.

   32-bit signed machine integers are modelled as ℤ: on the documented
   domain (x ∈ [0,256], y ∈ [0,192]) every intermediate value of the
   interpolator stays well inside the i32 range, which is itself proved
   below through the range-checked variant `setupChecked`.  The bitwise
   operations of Slope::FracXEnd, which the C++ performs on `uint32_t`
   after implicit i32→u32 conversion, are modelled by an explicit u32
   round-trip (`toU32`/`ofU32`) around the corresponding ℕ bit
   operations; `>>>` on ℤ is the arithmetic shift. -/

set_option maxRecDepth 100000

namespace NDS

/-- kFracBits of slope.h: the number of fractional bits of the interpolator. -/
def kFracBits : Nat := 18

/-- kOne of slope.h: the value 1.0 in fixed point, `1 << kFracBits`. -/
def kOne : Int := 1 <<< (kFracBits : Int)

/-- kBias of slope.h: the 0.5 bias applied to X-major spans, `kOne >> 1`. -/
def kBias : Int := kOne >>> (1 : Int)

/-- Conversion of a signed 32-bit value (modelled as ℤ) to its u32 bit
pattern, as performed implicitly by the C++ i32→u32 conversion. -/
def toU32 (x : Int) : Nat := (x % (2 ^ 32 : Int)).toNat

/-- Reinterpretation of a u32 bit pattern as a signed 32-bit value. -/
def ofU32 (n : Nat) : Int := if n < 2 ^ 31 then (n : Int) else (n : Int) - 2 ^ 32

/-- Bitwise AND of two 32-bit values, computed on the u32 bit patterns as
in the C++ source. -/
def and32 (a b : Int) : Int := ofU32 (toU32 a &&& toU32 b)

/-- Bitwise NOT of a 32-bit value (`~` on u32). -/
def not32 (a : Int) : Int := ofU32 (toU32 a ^^^ 0xFFFFFFFF)

/-- kMask of slope.h: `~0u << (kFracBits / 2)` computed in u32, i.e. the
bit pattern 0xFFFFFE00, which reinterpreted as signed 32-bit is -512. -/
def kMask : Int := ofU32 ((0xFFFFFFFF <<< (kFracBits / 2)) % 2 ^ 32)

theorem kOne_eq : kOne = 262144 := by decide

theorem kBias_eq : kBias = 131072 := by decide

theorem kMask_eq : kMask = -512 := by decide

theorem not32_kMask_eq : not32 kMask = 511 := by decide

/-- Slope of slope.h: the configured interpolator state.  Field `x0` is
`m_x0` (fixed point), `y0` is `m_y0`, `dx` is `m_dx`, `negative` is
`m_negative` and `xMajor` is `m_xMajor`. -/
structure Slope where
  x0 : Int
  y0 : Int
  dx : Int
  negative : Bool
  xMajor : Bool
deriving DecidableEq, Repr

/-- Body of Slope::Setup after the initial top-to-bottom normalization
(the `if (y1 < y0) swap` at the top of Setup); the caller `Slope.setup`
performs that swap, so here the pair (y0, y1) is already ordered. -/
def Slope.setupAux (x0 y0 x1 y1 : Int) : Slope :=
  -- m_x0 = x0 << kFracBits; m_y0 = y0
  let mx0 := x0 <<< (kFracBits : Int)
  -- m_negative = (x1 < x0); if negative: m_x0--, swap(x0, x1)
  let mx0 := if x1 < x0 then mx0 - 1 else mx0
  let xa := if x1 < x0 then x1 else x0
  let xb := if x1 < x0 then x0 else x1
  -- dx = x1 - x0; dy = y1 - y0 (after the swap above)
  let dx := xb - xa
  let dy := y1 - y0
  -- bias for X-major or diagonal slopes
  let mx0 := if dx > dy ∨ dx = dy then (if x1 < x0 then mx0 - kBias else mx0 + kBias) else mx0
  -- m_dx = dx; m_dx *= (dy != 0) ? kOne / dy : kOne
  let mdx := if dy ≠ 0 then dx * (kOne / dy) else dx * kOne
  { x0 := mx0, y0 := y0, dx := mdx, negative := decide (x1 < x0), xMajor := decide (dx > dy) }

/-- Slope::Setup of slope.h. -/
def Slope.setup (x0 y0 x1 y1 : Int) : Slope :=
  if y1 < y0 then Slope.setupAux x1 y1 x0 y0 else Slope.setupAux x0 y0 x1 y1

/-- Slope::FracXStart of slope.h. -/
def Slope.fracXStart (s : Slope) (y : Int) : Int :=
  let displacement := (y - s.y0) * s.dx
  if s.negative then s.x0 - displacement else s.x0 + displacement

/-- Slope::FracXEnd of slope.h.  `result & kMask` and `~kMask`, which the
C++ computes in u32, are modelled with `and32`/`not32`. -/
def Slope.fracXEnd (s : Slope) (y : Int) : Int :=
  let result := s.fracXStart y
  if s.xMajor then
    if s.negative then
      result + (not32 kMask - and32 result (not32 kMask)) - s.dx + kOne
    else
      and32 result kMask + s.dx - kOne
  else
    result

/-- Slope::XStart of slope.h: `FracXStart(y) >> kFracBits` (arithmetic shift). -/
def Slope.xStart (s : Slope) (y : Int) : Int := s.fracXStart y >>> kFracBits

/-- Slope::XEnd of slope.h: `FracXEnd(y) >> kFracBits` (arithmetic shift). -/
def Slope.xEnd (s : Slope) (y : Int) : Int := s.fracXEnd y >>> kFracBits

/-- Normalized deltas of Slope::Setup: the local variables `dx`, `dy` of
Setup after the top-to-bottom swap and the negative-slope swap (so both
components are non-negative). -/
def setupDeltasAux (x0 y0 x1 y1 : Int) : Int × Int :=
  if x1 < x0 then (x0 - x1, y1 - y0) else (x1 - x0, y1 - y0)

/-- Normalized deltas of Slope::Setup including the top-to-bottom swap. -/
def setupDeltas (x0 y0 x1 y1 : Int) : Int × Int :=
  if y1 < y0 then setupDeltasAux x1 y1 x0 y0 else setupDeltasAux x0 y0 x1 y1

theorem Slope.setup_of_le (x0 y0 x1 y1 : Int) (h : y0 ≤ y1) :
    Slope.setup x0 y0 x1 y1 = Slope.setupAux x0 y0 x1 y1 := by
  simp [Slope.setup, not_lt.mpr h]

theorem Slope.setup_swap (x0 y0 x1 y1 : Int) (h : y0 ≠ y1) :
    Slope.setup x0 y0 x1 y1 = Slope.setup x1 y1 x0 y0 := by
  rcases lt_or_gt_of_ne h with h1 | h1
  · simp [Slope.setup, not_lt.mpr h1.le, h1]
  · simp [Slope.setup, not_lt.mpr h1.le, h1]

theorem shiftLeft_kFracBits (x : Int) : x <<< (kFracBits : Int) = x * 2 ^ 18 := by
  have h18 : (kFracBits : Int) = ((18 : Nat) : Int) := rfl
  rw [h18, Int.shiftLeft_eq_mul_pow]
  norm_num

theorem Slope.setupAux_pos (x0 y0 x1 y1 : Int) (h : x0 ≤ x1) :
    Slope.setupAux x0 y0 x1 y1 =
      { x0 := if x1 - x0 > y1 - y0 ∨ x1 - x0 = y1 - y0
              then x0 * 2 ^ 18 + kBias else x0 * 2 ^ 18,
        y0 := y0,
        dx := if y1 - y0 ≠ 0 then (x1 - x0) * (kOne / (y1 - y0))
              else (x1 - x0) * kOne,
        negative := false,
        xMajor := decide (x1 - x0 > y1 - y0) } := by
  have hn : ¬ x1 < x0 := not_lt.mpr h
  simp [Slope.setupAux, hn, shiftLeft_kFracBits]

theorem Slope.setupAux_neg (x0 y0 x1 y1 : Int) (h : x1 < x0) :
    Slope.setupAux x0 y0 x1 y1 =
      { x0 := if x0 - x1 > y1 - y0 ∨ x0 - x1 = y1 - y0
              then x0 * 2 ^ 18 - 1 - kBias else x0 * 2 ^ 18 - 1,
        y0 := y0,
        dx := if y1 - y0 ≠ 0 then (x0 - x1) * (kOne / (y1 - y0))
              else (x0 - x1) * kOne,
        negative := true,
        xMajor := decide (x0 - x1 > y1 - y0) } := by
  simp [Slope.setupAux, h, shiftLeft_kFracBits]

theorem natAndMask (n : Nat) (h : n < 2 ^ 32) : n &&& 0xFFFFFE00 = n - n % 512 := by
  have hM : (0xFFFFFE00 : Nat) = (2 ^ 23 - 1) <<< 9 := by norm_num [Nat.shiftLeft_eq]
  have hR : n - n % 512 = (n >>> 9) <<< 9 := by
    rw [Nat.shiftRight_eq_div_pow, Nat.shiftLeft_eq]
    norm_num
    omega
  rw [hM, hR]
  apply Nat.eq_of_testBit_eq
  intro i
  rw [Nat.testBit_land, Nat.testBit_shiftLeft, Nat.testBit_shiftLeft,
    Nat.testBit_shiftRight, Nat.testBit_two_pow_sub_one]
  rcases Nat.lt_or_ge i 9 with h9 | h9
  · simp [Nat.not_le.mpr h9]
  · have h9d : (decide (i ≥ 9)) = true := by simp [h9]
    rw [h9d]
    have hi : 9 + (i - 9) = i := by omega
    rw [hi]
    rcases Nat.lt_or_ge i 32 with h32 | h32
    · have : i - 9 < 23 := by omega
      simp [this]
    · have hf : n.testBit i = false := by
        apply Nat.testBit_eq_false_of_lt
        calc n < 2 ^ 32 := h
        _ ≤ 2 ^ i := Nat.pow_le_pow_right (by norm_num) h32
      simp [hf]

/-- The `& kMask` operation clears exactly the 9 least significant bits of
an in-range 32-bit value. -/
theorem and32_kMask (x : Int) (h1 : -(2 ^ 31) ≤ x) (h2 : x < 2 ^ 31) :
    and32 x kMask = x - x % 512 := by
  have hk : toU32 kMask = 0xFFFFFE00 := by decide
  have hn : toU32 x < 2 ^ 32 := by unfold toU32; omega
  have hand := natAndMask (toU32 x) hn
  unfold and32
  rw [hk, hand]
  unfold ofU32 toU32
  split_ifs <;> omega

/-- FracXEnd on a positive X-major slope, rewritten arithmetically. -/
theorem Slope.fracXEnd_pos_xmajor (s : Slope) (y : Int)
    (hneg : s.negative = false) (hmaj : s.xMajor = true)
    (h1 : -(2 ^ 31) ≤ s.fracXStart y) (h2 : s.fracXStart y < 2 ^ 31) :
    s.fracXEnd y = s.fracXStart y - s.fracXStart y % 512 + s.dx - kOne := by
  simp [Slope.fracXEnd, hneg, hmaj, and32_kMask _ h1 h2]

theorem Slope.xStart_eq_div (s : Slope) (y : Int) :
    s.xStart y = s.fracXStart y / 262144 := by
  rw [Slope.xStart, kFracBits, Int.shiftRight_eq_div_pow]
  norm_num

theorem Slope.xEnd_eq_div (s : Slope) (y : Int) :
    s.xEnd y = s.fracXEnd y / 262144 := by
  rw [Slope.xEnd, kFracBits, Int.shiftRight_eq_div_pow]
  norm_num

theorem setupDeltas_of_le (x0 y0 x1 y1 : Int) (h : y0 ≤ y1) :
    setupDeltas x0 y0 x1 y1 = setupDeltasAux x0 y0 x1 y1 := by
  simp [setupDeltas, not_lt.mpr h]

theorem setupDeltasAux_pos (x0 y0 x1 y1 : Int) (h : x0 ≤ x1) :
    setupDeltasAux x0 y0 x1 y1 = (x1 - x0, y1 - y0) := by
  simp [setupDeltasAux, not_lt.mpr h]

theorem dxAux_spec (x0 y0 x1 y1 : Int) :
    ((setupDeltasAux x0 y0 x1 y1).2 ≠ 0 →
      (Slope.setupAux x0 y0 x1 y1).dx =
        (setupDeltasAux x0 y0 x1 y1).1 * (kOne / (setupDeltasAux x0 y0 x1 y1).2)) ∧
    ((setupDeltasAux x0 y0 x1 y1).2 = 0 →
      (Slope.setupAux x0 y0 x1 y1).dx = (setupDeltasAux x0 y0 x1 y1).1 * kOne) := by
  rcases le_or_lt x0 x1 with hx | hx
  · rw [Slope.setupAux_pos _ _ _ _ hx, setupDeltasAux, if_neg (not_lt.mpr hx)]
    exact ⟨fun h => if_pos h, fun h => if_neg (fun hc => hc h)⟩
  · rw [Slope.setupAux_neg _ _ _ _ hx, setupDeltasAux, if_pos hx]
    exact ⟨fun h => if_pos h, fun h => if_neg (fun hc => hc h)⟩

/-- C1: after normalization (top-to-bottom swap, then magnitude-positive
swap, both mirrored by `setupDeltas`), the configured increment DX is
`dx_int * (kOne / dy_int)` — a truncating integer division of kOne by
dy_int performed before the multiplication — when dy_int ≠ 0, and
`dx_int * kOne` when dy_int = 0. -/
theorem c1_dx_division_first (x0 y0 x1 y1 : Int) :
    ((setupDeltas x0 y0 x1 y1).2 ≠ 0 →
      (Slope.setup x0 y0 x1 y1).dx =
        (setupDeltas x0 y0 x1 y1).1 * (kOne / (setupDeltas x0 y0 x1 y1).2)) ∧
    ((setupDeltas x0 y0 x1 y1).2 = 0 →
      (Slope.setup x0 y0 x1 y1).dx = (setupDeltas x0 y0 x1 y1).1 * kOne) := by
  rcases le_or_lt y0 y1 with hy | hy
  · rw [Slope.setup_of_le _ _ _ _ hy, setupDeltas_of_le _ _ _ _ hy]
    exact dxAux_spec x0 y0 x1 y1
  · rw [Slope.setup, if_pos hy, setupDeltas, if_pos hy]
    exact dxAux_spec x1 y1 x0 y0

theorem c1_dx_division_first_witness :
    (Slope.setup 0 0 69 49).dx =
        (setupDeltas 0 0 69 49).1 * (kOne / (setupDeltas 0 0 69 49).2) ∧
    (Slope.setup 0 0 5 0).dx = (setupDeltas 0 0 5 0).1 * kOne :=
  ⟨(c1_dx_division_first 0 0 69 49).1 (by decide),
   (c1_dx_division_first 0 0 5 0).2 (by decide)⟩

/-- C2: for every configured slope and y in the normalized range,
FracXEnd equals FracXStart when not X-major, equals
`(s & kMask) + dx - kOne` when X-major positive, and equals
`s + (~kMask - (s & ~kMask)) - dx + kOne` when X-major negative; moreover
kMask is `~((1 << 9) - 1)` and `& kMask` clears exactly the low 9
fractional bits of any in-range 32-bit value. -/
theorem c2_fracXEnd_cases (x0 y0 x1 y1 y : Int)
    (hya : min y0 y1 ≤ y) (hyb : y ≤ max y0 y1) :
    ((Slope.setup x0 y0 x1 y1).xMajor = false →
      (Slope.setup x0 y0 x1 y1).fracXEnd y = (Slope.setup x0 y0 x1 y1).fracXStart y) ∧
    ((Slope.setup x0 y0 x1 y1).xMajor = true →
      (Slope.setup x0 y0 x1 y1).negative = false →
      (Slope.setup x0 y0 x1 y1).fracXEnd y =
        and32 ((Slope.setup x0 y0 x1 y1).fracXStart y) kMask
          + (Slope.setup x0 y0 x1 y1).dx - kOne) ∧
    ((Slope.setup x0 y0 x1 y1).xMajor = true →
      (Slope.setup x0 y0 x1 y1).negative = true →
      (Slope.setup x0 y0 x1 y1).fracXEnd y =
        (Slope.setup x0 y0 x1 y1).fracXStart y
          + (not32 kMask - and32 ((Slope.setup x0 y0 x1 y1).fracXStart y) (not32 kMask))
          - (Slope.setup x0 y0 x1 y1).dx + kOne) ∧
    kMask = not32 ((1 <<< (9 : Int)) - 1) ∧
    (∀ x : Int, -(2 ^ 31) ≤ x → x < 2 ^ 31 → and32 x kMask = x - x % 2 ^ 9) := by
  refine ⟨fun hmaj => ?_, fun hmaj hneg => ?_, fun hmaj hneg => ?_, by decide,
    fun x h1 h2 => ?_⟩
  · simp [Slope.fracXEnd, hmaj]
  · simp [Slope.fracXEnd, hmaj, hneg]
  · simp [Slope.fracXEnd, hmaj, hneg]
  · have := and32_kMask x h1 h2
    norm_num at this ⊢
    exact this

theorem c2_fracXEnd_cases_witness :
    (Slope.setup 0 0 69 49).fracXEnd 0 =
      and32 ((Slope.setup 0 0 69 49).fracXStart 0) kMask
        + (Slope.setup 0 0 69 49).dx - kOne ∧
    (Slope.setup 0 0 10 100).fracXEnd 5 = (Slope.setup 0 0 10 100).fracXStart 5 ∧
    (Slope.setup 69 0 0 49).fracXEnd 0 =
      (Slope.setup 69 0 0 49).fracXStart 0
        + (not32 kMask - and32 ((Slope.setup 69 0 0 49).fracXStart 0) (not32 kMask))
        - (Slope.setup 69 0 0 49).dx + kOne ∧
    and32 1000 kMask = 1000 - 1000 % 2 ^ 9 :=
  ⟨(c2_fracXEnd_cases 0 0 69 49 0 (by decide) (by decide)).2.1 (by decide) (by decide),
   (c2_fracXEnd_cases 0 0 10 100 5 (by decide) (by decide)).1 (by decide),
   (c2_fracXEnd_cases 69 0 0 49 0 (by decide) (by decide)).2.2.1 (by decide) (by decide),
   (c2_fracXEnd_cases 0 0 1 1 0 (by decide) (by decide)).2.2.2.2 1000 (by decide) (by decide)⟩

/-- C3: the slope setup(0,0,69,49) is X-major and its spans contain a
one-pixel gap: at y* = 37 the next scanline starts more than one pixel
after this scanline ends (xEnd 37 = 52, xStart 38 = 54). -/
theorem c3_xmajor_gap :
    (Slope.setup 0 0 69 49).xMajor = true ∧
    ∃ y : Int, 0 ≤ y ∧ y < 48 ∧
      (Slope.setup 0 0 69 49).xStart (y + 1) > (Slope.setup 0 0 69 49).xEnd y + 1 :=
  ⟨by decide, 37, by decide, by decide, by decide⟩

/-- C4 counterexample: for the distinct in-domain endpoints (0,0) and
(1,0) — a horizontal edge, where the `y1 < y0` test swaps in neither
direction — the two setup orders disagree on isNegative (and consequently
on fracXStart), refuting the claim as stated. -/
theorem c4_counterexample :
    (Slope.setup 0 0 1 0).negative ≠ (Slope.setup 1 0 0 0).negative ∧
    (Slope.setup 0 0 1 0).fracXStart 0 ≠ (Slope.setup 1 0 0 0).fracXStart 0 := by
  decide

/-- C4 amended: orientation symmetry of Setup holds for all in-domain
endpoints with y0 ≠ y1 (non-horizontal edges): both argument orders give
identical dx, isXMajor, isNegative, and identical fracXStart/fracXEnd on
the whole normalized scanline range. -/
theorem c4_orientation_symmetry (x0 y0 x1 y1 : Int)
    (hx0 : 0 ≤ x0) (hx0' : x0 ≤ 256) (hx1 : 0 ≤ x1) (hx1' : x1 ≤ 256)
    (hy0 : 0 ≤ y0) (hy0' : y0 ≤ 192) (hy1 : 0 ≤ y1) (hy1' : y1 ≤ 192)
    (hne : y0 ≠ y1) :
    (Slope.setup x0 y0 x1 y1).dx = (Slope.setup x1 y1 x0 y0).dx ∧
    (Slope.setup x0 y0 x1 y1).xMajor = (Slope.setup x1 y1 x0 y0).xMajor ∧
    (Slope.setup x0 y0 x1 y1).negative = (Slope.setup x1 y1 x0 y0).negative ∧
    ∀ y : Int, min y0 y1 ≤ y → y ≤ max y0 y1 →
      (Slope.setup x0 y0 x1 y1).fracXStart y = (Slope.setup x1 y1 x0 y0).fracXStart y ∧
      (Slope.setup x0 y0 x1 y1).fracXEnd y = (Slope.setup x1 y1 x0 y0).fracXEnd y := by
  rw [Slope.setup_swap x0 y0 x1 y1 hne]
  exact ⟨rfl, rfl, rfl, fun y h1 h2 => ⟨rfl, rfl⟩⟩

theorem c4_orientation_symmetry_witness :
    (Slope.setup 0 0 5 3).fracXStart 1 = (Slope.setup 5 3 0 0).fracXStart 1 :=
  ((c4_orientation_symmetry 0 0 5 3 (by decide) (by decide) (by decide) (by decide)
      (by decide) (by decide) (by decide) (by decide) (by decide)).2.2.2 1
      (by decide) (by decide)).1

/-- C5: on the diagonal setup(0,0,n,n) with 0 < n ≤ 256 every scanline's
span is the single pixel (y, y); in particular setup(0,0,64,64) is not
X-major, not negative, and has dx = kOne = 262144. -/
theorem c5_diagonal (n : Int) (h1 : 0 < n) (h2 : n ≤ 256) :
    (∀ y : Int, 0 ≤ y → y < n →
      (Slope.setup 0 0 n n).xStart y = y ∧ (Slope.setup 0 0 n n).xEnd y = y) ∧
    (Slope.setup 0 0 64 64).xMajor = false ∧
    (Slope.setup 0 0 64 64).negative = false ∧
    (Slope.setup 0 0 64 64).dx = 262144 := by
  have hch : Slope.setup 0 0 n n =
      { x0 := 131072, y0 := 0, dx := n * (262144 / n),
        negative := false, xMajor := false } := by
    rw [Slope.setup_of_le 0 0 n n h1.le, Slope.setupAux_pos 0 0 n n h1.le]
    simp [kBias_eq, kOne_eq, h1.ne']
  have hfs : ∀ y : Int,
      (Slope.setup 0 0 n n).fracXStart y = 131072 + y * (n * (262144 / n)) := by
    intro y
    rw [hch]
    simp [Slope.fracXStart]
  have hq : n * (262144 / n) = 262144 - 262144 % n := by
    linarith [Int.ediv_add_emod 262144 n]
  have hr0 : 0 ≤ 262144 % n := Int.emod_nonneg 262144 h1.ne'
  have hr1 : 262144 % n < n := Int.emod_lt_of_pos 262144 h1
  refine ⟨fun y hy0 hy1 => ?_, by decide, by decide, by decide⟩
  have hval : (Slope.setup 0 0 n n).fracXStart y
      = 131072 + 262144 * y - y * (262144 % n) := by
    rw [hfs y, hq]
    ring
  have hm0 : 0 ≤ y * (262144 % n) := mul_nonneg hy0 hr0
  have hm1 : y * (262144 % n) ≤ 255 * 255 :=
    mul_le_mul (by omega) (by omega) hr0 (by norm_num)
  have hfe : (Slope.setup 0 0 n n).fracXEnd y = (Slope.setup 0 0 n n).fracXStart y := by
    rw [Slope.fracXEnd, hch]
    simp
  constructor
  · rw [Slope.xStart_eq_div, hval]
    generalize y * (262144 % n) = m at hm0 hm1
    omega
  · rw [Slope.xEnd_eq_div, hfe, hval]
    generalize y * (262144 % n) = m at hm0 hm1
    omega

theorem c5_diagonal_witness :
    (Slope.setup 0 0 64 64).xStart 63 = 63 ∧ (Slope.setup 0 0 64 64).xEnd 63 = 63 :=
  (c5_diagonal 64 (by decide) (by decide)).1 63 (by decide) (by decide)

theorem Slope.le_of_not_negative (x0 y0 x1 y1 : Int) (h : y0 ≤ y1)
    (hneg : (Slope.setup x0 y0 x1 y1).negative = false) : x0 ≤ x1 := by
  by_contra hc
  rw [Slope.setup_of_le _ _ _ _ h, Slope.setupAux_neg _ _ _ _ (not_le.mp hc)] at hneg
  simp at hneg

theorem Slope.lt_of_xmajor_pos (x0 y0 x1 y1 : Int) (h : y0 ≤ y1) (hx : x0 ≤ x1)
    (hmaj : (Slope.setup x0 y0 x1 y1).xMajor = true) : y1 - y0 < x1 - x0 := by
  rw [Slope.setup_of_le _ _ _ _ h, Slope.setupAux_pos _ _ _ _ hx] at hmaj
  simpa using hmaj

theorem Slope.setup_pos_xmajor_char (x0 y0 x1 y1 : Int) (h : y0 ≤ y1) (hx : x0 ≤ x1)
    (hmaj : y1 - y0 < x1 - x0) (hdy : y0 < y1) :
    Slope.setup x0 y0 x1 y1 =
      { x0 := x0 * 262144 + 131072, y0 := y0,
        dx := (x1 - x0) * (262144 / (y1 - y0)),
        negative := false, xMajor := true } := by
  rw [Slope.setup_of_le _ _ _ _ h, Slope.setupAux_pos _ _ _ _ hx]
  rw [if_pos (Or.inl hmaj), if_pos (by omega : y1 - y0 ≠ 0), kBias_eq, kOne_eq]
  simp [Slope.mk.injEq, hmaj]

theorem c6_aux (x0 y0 x1 y1 y : Int)
    (hx0 : 0 ≤ x0) (hx0' : x0 ≤ 256) (hx1' : x1 ≤ 256)
    (hy0 : 0 ≤ y0) (hy1' : y1 ≤ 192)
    (hle : y0 ≤ y1) (hx : x0 ≤ x1) (hmaj : y1 - y0 < x1 - x0)
    (hya : y0 ≤ y) (hyb : y + 1 ≤ y1) :
    (Slope.setup x0 y0 x1 y1).xStart (y + 1) ≥ (Slope.setup x0 y0 x1 y1).xEnd y - 1 ∧
    (Slope.setup x0 y0 x1 y1).xStart (y + 1) ≤ (Slope.setup x0 y0 x1 y1).xStart y
      + (x1 - x0 + (y1 - y0) - 1) / (y1 - y0) + 1 := by
  have hdy1 : 1 ≤ y1 - y0 := by omega
  have hq0 : 0 ≤ (262144 : Int) / (y1 - y0) := Int.ediv_nonneg (by norm_num) (by omega)
  have hq1 : (262144 : Int) / (y1 - y0) ≤ 262144 := Int.ediv_le_self _ (by norm_num)
  have hqd : (y1 - y0) * (262144 / (y1 - y0)) ≤ 262144 := by
    have hd := Int.ediv_add_emod 262144 (y1 - y0)
    have hr := Int.emod_nonneg 262144 (by omega : y1 - y0 ≠ 0)
    linarith
  have hM0 : 0 ≤ (x1 - x0) * (262144 / (y1 - y0)) :=
    mul_nonneg (by omega) hq0
  have hM1 : (x1 - x0) * (262144 / (y1 - y0)) ≤ 256 * 262144 :=
    mul_le_mul (by omega) hq1 hq0 (by norm_num)
  have hchar := Slope.setup_pos_xmajor_char x0 y0 x1 y1 hle hx hmaj (by omega)
  have hfs : ∀ z : Int, (Slope.setup x0 y0 x1 y1).fracXStart z
      = x0 * 262144 + 131072 + (z - y0) * ((x1 - x0) * (262144 / (y1 - y0))) := by
    intro z
    rw [hchar]
    simp [Slope.fracXStart]
  -- bound the fixed-point start of scanline y within the i32 range
  have htM : ∀ z : Int, y0 ≤ z → z ≤ y1 →
      (z - y0) * ((x1 - x0) * (262144 / (y1 - y0))) ≤ 256 * 262144 := by
    intro z hz0 hz1
    calc (z - y0) * ((x1 - x0) * (262144 / (y1 - y0)))
        ≤ (y1 - y0) * ((x1 - x0) * (262144 / (y1 - y0))) :=
          mul_le_mul_of_nonneg_right (by omega) hM0
    _ = (x1 - x0) * ((y1 - y0) * (262144 / (y1 - y0))) := by ring
    _ ≤ (x1 - x0) * 262144 := mul_le_mul_of_nonneg_left hqd (by omega)
    _ ≤ 256 * 262144 := by nlinarith
  have htM0 : ∀ z : Int, y0 ≤ z →
      0 ≤ (z - y0) * ((x1 - x0) * (262144 / (y1 - y0))) := by
    intro z hz0
    exact mul_nonneg (by omega) hM0
  have hs0 : 0 ≤ (Slope.setup x0 y0 x1 y1).fracXStart y := by
    rw [hfs y]
    have := htM0 y hya
    omega
  have hs1 : (Slope.setup x0 y0 x1 y1).fracXStart y < 2 ^ 31 := by
    rw [hfs y]
    have := htM y hya (by omega)
    omega
  have hfe : (Slope.setup x0 y0 x1 y1).fracXEnd y
      = (Slope.setup x0 y0 x1 y1).fracXStart y
        - (Slope.setup x0 y0 x1 y1).fracXStart y % 512
        + (x1 - x0) * (262144 / (y1 - y0)) - 262144 := by
    rw [Slope.fracXEnd_pos_xmajor _ _ (by rw [hchar]) (by rw [hchar]) (by omega) hs1,
      kOne_eq]
    rw [hchar]
  -- the division-first increment is bounded by the exact rational slope
  have hceil : ((x1 - x0) * (262144 / (y1 - y0))) / 262144
      ≤ (x1 - x0 + (y1 - y0) - 1) / (y1 - y0) := by
    have h1 : ((x1 - x0) * (262144 / (y1 - y0))) / 262144
        = (y1 - y0) * ((x1 - x0) * (262144 / (y1 - y0))) / ((y1 - y0) * 262144) :=
      (Int.mul_ediv_mul_of_pos _ _ (by omega)).symm
    have hnum : (y1 - y0) * ((x1 - x0) * (262144 / (y1 - y0)))
        ≤ (x1 - x0) * 262144 := by
      calc (y1 - y0) * ((x1 - x0) * (262144 / (y1 - y0)))
          = (x1 - x0) * ((y1 - y0) * (262144 / (y1 - y0))) := by ring
      _ ≤ (x1 - x0) * 262144 := mul_le_mul_of_nonneg_left hqd (by omega)
    have h2 : (y1 - y0) * ((x1 - x0) * (262144 / (y1 - y0))) / ((y1 - y0) * 262144)
        ≤ (x1 - x0) * 262144 / ((y1 - y0) * 262144) :=
      Int.ediv_le_ediv (by positivity) hnum
    have h3 : (x1 - x0) * 262144 / ((y1 - y0) * 262144) = (x1 - x0) / (y1 - y0) := by
      rw [show (x1 - x0) * 262144 = 262144 * (x1 - x0) by ring,
        show (y1 - y0) * 262144 = 262144 * (y1 - y0) by ring]
      exact Int.mul_ediv_mul_of_pos _ _ (by norm_num)
    have h4 : (x1 - x0) / (y1 - y0) ≤ (x1 - x0 + (y1 - y0) - 1) / (y1 - y0) :=
      Int.ediv_le_ediv (by omega) (by omega)
    omega
  have hstep : (y + 1 - y0) * ((x1 - x0) * (262144 / (y1 - y0)))
      = (y - y0) * ((x1 - x0) * (262144 / (y1 - y0)))
        + (x1 - x0) * (262144 / (y1 - y0)) := by ring
  constructor
  · rw [ge_iff_le, Slope.xStart_eq_div, Slope.xEnd_eq_div, hfe, hfs (y + 1), hfs y, hstep]
    generalize (y - y0) * ((x1 - x0) * (262144 / (y1 - y0))) = B at hstep ⊢
    generalize (x1 - x0) * (262144 / (y1 - y0)) = M at hstep ⊢
    omega
  · rw [Slope.xStart_eq_div, Slope.xStart_eq_div, hfs (y + 1), hfs y, hstep]
    generalize (y - y0) * ((x1 - x0) * (262144 / (y1 - y0))) = B at hstep ⊢
    generalize (x1 - x0 + (y1 - y0) - 1) / (y1 - y0) = C at hceil ⊢
    generalize (x1 - x0) * (262144 / (y1 - y0)) = M at hceil hstep ⊢
    omega

/-- C6: for positive X-major slopes from in-domain endpoints, consecutive
scanline spans progress monotonically: xStart(y+1) ≥ xEnd(y) - 1 and
xStart(y+1) ≤ xStart(y) + ceil(dx_int/dy_int) + 1, the ceiling written as
(dx_int + dy_int - 1) / dy_int on the normalized deltas. -/
theorem c6_monotone_progression (x0 y0 x1 y1 y : Int)
    (hx0 : 0 ≤ x0) (hx0' : x0 ≤ 256) (hx1 : 0 ≤ x1) (hx1' : x1 ≤ 256)
    (hy0 : 0 ≤ y0) (hy0' : y0 ≤ 192) (hy1 : 0 ≤ y1) (hy1' : y1 ≤ 192)
    (hmaj : (Slope.setup x0 y0 x1 y1).xMajor = true)
    (hneg : (Slope.setup x0 y0 x1 y1).negative = false)
    (hya : min y0 y1 ≤ y) (hyb : y + 1 ≤ max y0 y1) :
    (Slope.setup x0 y0 x1 y1).xStart (y + 1) ≥ (Slope.setup x0 y0 x1 y1).xEnd y - 1 ∧
    (Slope.setup x0 y0 x1 y1).xStart (y + 1) ≤ (Slope.setup x0 y0 x1 y1).xStart y
      + ((setupDeltas x0 y0 x1 y1).1 + (setupDeltas x0 y0 x1 y1).2 - 1)
          / (setupDeltas x0 y0 x1 y1).2 + 1 := by
  rcases le_or_lt y0 y1 with hle | hlt
  · have hx := Slope.le_of_not_negative x0 y0 x1 y1 hle hneg
    have hm := Slope.lt_of_xmajor_pos x0 y0 x1 y1 hle hx hmaj
    rw [setupDeltas_of_le _ _ _ _ hle, setupDeltasAux_pos _ _ _ _ hx]
    exact c6_aux x0 y0 x1 y1 y hx0 hx0' hx1' hy0 hy1' hle hx hm
      (by omega : y0 ≤ y) (by omega : y + 1 ≤ y1)
  · have hne : y0 ≠ y1 := by omega
    rw [Slope.setup_swap x0 y0 x1 y1 hne] at hmaj hneg ⊢
    have hle : y1 ≤ y0 := hlt.le
    have hx := Slope.le_of_not_negative x1 y1 x0 y0 hle hneg
    have hm := Slope.lt_of_xmajor_pos x1 y1 x0 y0 hle hx hmaj
    rw [setupDeltas, if_pos hlt, setupDeltasAux_pos _ _ _ _ hx]
    exact c6_aux x1 y1 x0 y0 y hx1 hx1' hx0' hy1 hy0' hle hx hm
      (by omega : y1 ≤ y) (by omega : y + 1 ≤ y0)

theorem c6_monotone_progression_witness :
    (Slope.setup 0 0 69 49).xStart 38 ≥ (Slope.setup 0 0 69 49).xEnd 37 - 1 ∧
    (Slope.setup 0 0 69 49).xStart 38 ≤ (Slope.setup 0 0 69 49).xStart 37
      + ((setupDeltas 0 0 69 49).1 + (setupDeltas 0 0 69 49).2 - 1)
          / (setupDeltas 0 0 69 49).2 + 1 :=
  c6_monotone_progression 0 0 69 49 37 (by decide) (by decide) (by decide) (by decide)
    (by decide) (by decide) (by decide) (by decide) (by decide) (by decide)
    (by decide) (by decide)

/-- Range check modelling absence of signed 32-bit overflow: a value is
passed through unchanged iff it lies in the i32 range. -/
def i32chk (x : Int) : Option Int :=
  if -(2 ^ 31) ≤ x ∧ x < 2 ^ 31 then some x else none

/-- Division guarded against a zero divisor. -/
def divchk (a b : Int) : Option Int :=
  if b = 0 then none else some (a / b)

theorem i32chk_eq (x : Int) (h1 : -(2 ^ 31) ≤ x) (h2 : x < 2 ^ 31) : i32chk x = some x :=
  if_pos ⟨h1, h2⟩

/-- Slope::Setup (after the top-to-bottom swap) with every arithmetic
step range-checked and the division guarded, step for step as in
`Slope.setupAux`. -/
def Slope.setupCheckedAux (x0 y0 x1 y1 : Int) : Option Slope :=
  (i32chk (x0 <<< (kFracBits : Int))).bind fun mx0 =>
  (if x1 < x0 then i32chk (mx0 - 1) else some mx0).bind fun mx0 =>
  (i32chk ((if x1 < x0 then x0 else x1) - (if x1 < x0 then x1 else x0))).bind fun dx =>
  (i32chk (y1 - y0)).bind fun dy =>
  (if dx > dy ∨ dx = dy then (if x1 < x0 then i32chk (mx0 - kBias) else i32chk (mx0 + kBias))
   else some mx0).bind fun mx0 =>
  (if dy ≠ 0 then (divchk kOne dy).bind fun q => i32chk (dx * q)
   else i32chk (dx * kOne)).bind fun mdx =>
  some { x0 := mx0, y0 := y0, dx := mdx, negative := decide (x1 < x0),
         xMajor := decide (dx > dy) }

/-- Slope::Setup with range-checked arithmetic, including the initial
top-to-bottom swap. -/
def Slope.setupChecked (x0 y0 x1 y1 : Int) : Option Slope :=
  if y1 < y0 then Slope.setupCheckedAux x1 y1 x0 y0 else Slope.setupCheckedAux x0 y0 x1 y1

theorem setupCheckedAux_eq (x0 y0 x1 y1 : Int)
    (hx0 : 0 ≤ x0) (hx0' : x0 ≤ 256) (hx1 : 0 ≤ x1) (hx1' : x1 ≤ 256)
    (hy0 : 0 ≤ y0) (hy1' : y1 ≤ 192) (hle : y0 ≤ y1) :
    Slope.setupCheckedAux x0 y0 x1 y1 = some (Slope.setupAux x0 y0 x1 y1) := by
  have hq0 : 0 ≤ (262144 : Int) / (y1 - y0) := Int.ediv_nonneg (by norm_num) (by omega)
  have hq1 : (262144 : Int) / (y1 - y0) ≤ 262144 := Int.ediv_le_self _ (by norm_num)
  have hkq : kOne / (y1 - y0) = (262144 : Int) / (y1 - y0) := by rw [kOne_eq]
  rw [Slope.setupCheckedAux, Slope.setupAux, shiftLeft_kFracBits]
  rw [i32chk_eq _ (by omega) (by omega), Option.some_bind]
  rcases le_or_lt x0 x1 with hx | hx
  · have hnx : ¬ x1 < x0 := not_lt.mpr hx
    have hM0 : 0 ≤ (x1 - x0) * (262144 / (y1 - y0)) := mul_nonneg (by omega) hq0
    have hM1 : (x1 - x0) * (262144 / (y1 - y0)) ≤ 256 * 262144 :=
      mul_le_mul (by omega) hq1 hq0 (by norm_num)
    simp only [hnx, if_false]
    rw [Option.some_bind]
    rw [i32chk_eq _ (by omega) (by omega), Option.some_bind]
    rw [i32chk_eq _ (by omega) (by omega), Option.some_bind]
    rw [kBias_eq]
    by_cases hb : x1 - x0 > y1 - y0 ∨ x1 - x0 = y1 - y0
    · rw [if_pos hb, if_pos hb,
        i32chk_eq _ (by omega) (by omega), Option.some_bind]
      by_cases hd : y1 - y0 ≠ 0
      · rw [if_pos hd, if_pos hd, divchk, if_neg (by omega : ¬ (y1 - y0) = 0), Option.some_bind,
          hkq, i32chk_eq _ (by linarith) (by linarith), Option.some_bind]
      · rw [if_neg hd, if_neg hd, kOne_eq, i32chk_eq _ (by omega) (by omega), Option.some_bind]
    · rw [if_neg hb, if_neg hb, Option.some_bind]
      by_cases hd : y1 - y0 ≠ 0
      · rw [if_pos hd, if_pos hd, divchk, if_neg (by omega : ¬ (y1 - y0) = 0), Option.some_bind,
          hkq, i32chk_eq _ (by linarith) (by linarith), Option.some_bind]
      · rw [if_neg hd, if_neg hd, kOne_eq, i32chk_eq _ (by omega) (by omega), Option.some_bind]
  · have hM0 : 0 ≤ (x0 - x1) * (262144 / (y1 - y0)) := mul_nonneg (by omega) hq0
    have hM1 : (x0 - x1) * (262144 / (y1 - y0)) ≤ 256 * 262144 :=
      mul_le_mul (by omega) hq1 hq0 (by norm_num)
    simp only [hx, if_true]
    rw [i32chk_eq _ (by omega) (by omega), Option.some_bind]
    rw [i32chk_eq _ (by omega) (by omega), Option.some_bind]
    rw [i32chk_eq _ (by omega) (by omega), Option.some_bind]
    rw [kBias_eq]
    by_cases hb : x0 - x1 > y1 - y0 ∨ x0 - x1 = y1 - y0
    · rw [if_pos hb, if_pos hb,
        i32chk_eq _ (by omega) (by omega), Option.some_bind]
      by_cases hd : y1 - y0 ≠ 0
      · rw [if_pos hd, if_pos hd, divchk, if_neg (by omega : ¬ (y1 - y0) = 0), Option.some_bind,
          hkq, i32chk_eq _ (by linarith) (by linarith), Option.some_bind]
      · rw [if_neg hd, if_neg hd, kOne_eq, i32chk_eq _ (by omega) (by omega), Option.some_bind]
    · rw [if_neg hb, if_neg hb, Option.some_bind]
      by_cases hd : y1 - y0 ≠ 0
      · rw [if_pos hd, if_pos hd, divchk, if_neg (by omega : ¬ (y1 - y0) = 0), Option.some_bind,
          hkq, i32chk_eq _ (by linarith) (by linarith), Option.some_bind]
      · rw [if_neg hd, if_neg hd, kOne_eq, i32chk_eq _ (by omega) (by omega), Option.some_bind]

theorem Slope.setupAux_dx_nonneg (x0 y0 x1 y1 : Int) (hle : y0 ≤ y1) :
    0 ≤ (Slope.setupAux x0 y0 x1 y1).dx := by
  have hq0 : 0 ≤ kOne / (y1 - y0) := Int.ediv_nonneg (by rw [kOne_eq]; norm_num) (by omega)
  rcases le_or_lt x0 x1 with hx | hx
  · rw [Slope.setupAux_pos _ _ _ _ hx]
    show 0 ≤ if y1 - y0 ≠ 0 then (x1 - x0) * (kOne / (y1 - y0)) else (x1 - x0) * kOne
    split_ifs
    · exact mul_nonneg (by omega) hq0
    · exact mul_nonneg (by omega) (by rw [kOne_eq]; norm_num)
  · rw [Slope.setupAux_neg _ _ _ _ hx]
    show 0 ≤ if y1 - y0 ≠ 0 then (x0 - x1) * (kOne / (y1 - y0)) else (x0 - x1) * kOne
    split_ifs
    · exact mul_nonneg (by omega) hq0
    · exact mul_nonneg (by omega) (by rw [kOne_eq]; norm_num)

/-- C7: on the documented domain Setup is total with no arithmetic fault:
the range-checked setup, in which every intermediate 32-bit arithmetic
result must stay in the i32 range and the only division is reached with a
non-zero divisor, succeeds and returns exactly the unchecked result, and
afterwards DX ≥ 0. -/
theorem c7_setup_total_no_overflow (x0 y0 x1 y1 : Int)
    (hx0 : 0 ≤ x0) (hx0' : x0 ≤ 256) (hx1 : 0 ≤ x1) (hx1' : x1 ≤ 256)
    (hy0 : 0 ≤ y0) (hy0' : y0 ≤ 192) (hy1 : 0 ≤ y1) (hy1' : y1 ≤ 192)
    (hne : (x0, y0) ≠ (x1, y1)) :
    Slope.setupChecked x0 y0 x1 y1 = some (Slope.setup x0 y0 x1 y1) ∧
    0 ≤ (Slope.setup x0 y0 x1 y1).dx := by
  rcases le_or_lt y0 y1 with hle | hlt
  · rw [Slope.setupChecked, if_neg (not_lt.mpr hle), Slope.setup_of_le _ _ _ _ hle]
    exact ⟨setupCheckedAux_eq x0 y0 x1 y1 hx0 hx0' hx1 hx1' hy0 hy1' hle,
      Slope.setupAux_dx_nonneg x0 y0 x1 y1 hle⟩
  · rw [Slope.setupChecked, if_pos hlt, Slope.setup, if_pos hlt]
    exact ⟨setupCheckedAux_eq x1 y1 x0 y0 hx1 hx1' hx0 hx0' hy1 hy0' hlt.le,
      Slope.setupAux_dx_nonneg x1 y1 x0 y0 hlt.le⟩

theorem c7_setup_total_no_overflow_witness :
    Slope.setupChecked 0 2 1 0 = some (Slope.setup 0 2 1 0) ∧
    0 ≤ (Slope.setup 0 2 1 0).dx :=
  c7_setup_total_no_overflow 0 2 1 0 (by decide) (by decide) (by decide) (by decide)
    (by decide) (by decide) (by decide) (by decide) (by decide)

/-- C9: there are distinct in-domain endpoints and a scanline y inside the
normalized range for which XStart returns the off-screen column -1;
setup(0,2,1,0) at y = 2 is such a case (the one-ULP decrement for negative
slopes drives the fixed-point X to -1, and the arithmetic right shift
keeps it at -1). -/
theorem c9_offscreen_xstart :
    ∃ x0 y0 x1 y1 y : Int,
      0 ≤ x0 ∧ x0 ≤ 256 ∧ 0 ≤ x1 ∧ x1 ≤ 256 ∧
      0 ≤ y0 ∧ y0 ≤ 192 ∧ 0 ≤ y1 ∧ y1 ≤ 192 ∧
      (x0, y0) ≠ (x1, y1) ∧ min y0 y1 ≤ y ∧ y ≤ max y0 y1 ∧
      (Slope.setup x0 y0 x1 y1).xStart y = -1 :=
  ⟨0, 2, 1, 0, 2, by decide⟩

/-- Span of main.cpp: one captured scanline span.  The source fields
`exists` and `end` are Lean keywords, hence the underscores. -/
structure Span where
  exists_ : Bool
  start : Nat
  end_ : Nat
deriving DecidableEq, Repr

/-- Data of main.cpp: a parsed capture file.  The dense table
`lines[sweepY][sweepX].spans[scanY]` is modelled as a function of the
three indices. -/
structure Data where
  type : Nat
  minX : Nat
  maxX : Nat
  minY : Nat
  maxY : Nat
  lines : Nat → Nat → Nat → Span

/-- Reading of one block of span records (3 raw bytes each: exists,
start, end) for scanlines checkY, checkY+1, ... — cnt of them — stored
into the table at (py, px, scanline).  Reading past the end of the
buffer is a parse failure. -/
def readSpans (py px : Nat) : Nat → Nat → List Nat → (Nat → Nat → Nat → Span) →
    Option (List Nat × (Nat → Nat → Nat → Span))
  | _, 0, bs, tbl => some (bs, tbl)
  | checkY, cnt + 1, e :: s :: d :: bs, tbl =>
      readSpans py px (checkY + 1) cnt bs
        (fun a b c =>
          if a = py ∧ b = px ∧ c = checkY then { exists_ := e != 0, start := s, end_ := d }
          else tbl a b c)
  | _, _ + 1, _, _ => none

/-- The record loop of readFile in main.cpp: for each sweep coordinate
(x, y) — `coordList` below builds them in file order — two coord bytes
are read and checked against ((u8)prevX, (u8)prevY) (a mismatch abandons
the file), then the span block for the scanline range selected by the
type byte (bit 1: bottom corners run [prevY, 191], otherwise [0, prevY],
clamped to 191) is read into lines[prevY][prevX]. -/
def parseRecords (ty : Nat) : List (Nat × Nat) → List Nat → Nat → Nat →
    (Nat → Nat → Nat → Span) → Option (List Nat × Nat × Nat × (Nat → Nat → Nat → Span))
  | [], bs, px, py, tbl => some (bs, px, py, tbl)
  | (x, y) :: ps, c0 :: c1 :: bs, px, py, tbl =>
      if c0 = px % 256 ∧ c1 = py % 256 then
        let sY0 := if ty &&& 2 ≠ 0 then py else 0
        let eY0 := if ty &&& 2 ≠ 0 then 191 else py
        let sY := if 192 ≤ sY0 then 191 else sY0
        let eY := if 192 ≤ eY0 then 191 else eY0
        match readSpans py px sY (eY + 1 - sY) bs tbl with
        | some (bs2, tbl2) => parseRecords ty ps bs2 x y tbl2
        | none => none
      else none
  | _ :: _, _, _, _, _ => none

/-- The (x, y) sweep coordinates visited by the nested record loops of
readFile: y outer over [minY, maxY], x inner over [minX, maxX]. -/
def coordList (minY maxY minX maxX : Nat) : List (Nat × Nat) :=
  (List.range' minY (maxY + 1 - minY)).flatMap fun y =>
    (List.range' minX (maxX + 1 - minX)).map fun x => (x, y)

/-- readFile of main.cpp over an in-memory byte buffer: header (type byte,
u16le minX, u16le maxX, u8 minY, u8 maxY), the type-validity switch, the
record loop, and the final trailing span block for the last (prevX,
prevY).  Any abandoned file yields none — no partially parsed Data. -/
def readFile (bs : List Nat) : Option Data :=
  match bs with
  | t :: m0 :: m1 :: m2 :: m3 :: n0 :: n1 :: rest =>
    let minX := m0 + m1 * 256
    let maxX := m2 + m3 * 256
    let minY := n0
    let maxY := n1
    match t with
    | 0 | 1 | 2 | 3 =>
      match parseRecords t (coordList minY maxY minX maxX) rest 0 0
          (fun _ _ _ => { exists_ := false, start := 0, end_ := 0 }) with
      | some (bs2, px, py, tbl) =>
        let sY := if t &&& 2 ≠ 0 then min minY 191 else 0
        let eY := if t &&& 2 ≠ 0 then 191 else min maxY 191
        match readSpans py px sY (eY + 1 - sY) bs2 tbl with
        | some (_, tbl2) =>
            some { type := t, minX := minX, maxX := maxX, minY := minY, maxY := maxY,
                   lines := tbl2 }
        | none => none
      | none => none
    | _ => none
  | _ => none

/-- C8: the capture parser abandons the file — returning none, so no
partially parsed Data reaches the test loop — whenever the type byte is
outside {0,1,2,3}, and whenever a record's two coordinate bytes differ
from ((u8)prevX, (u8)prevY). -/
theorem c8_parser_abandons :
    (∀ (b : Nat) (rest : List Nat), 3 < b → readFile (b :: rest) = none) ∧
    (∀ (ty x y : Nat) (ps : List (Nat × Nat)) (c0 c1 : Nat) (bs : List Nat)
        (px py : Nat) (tbl : Nat → Nat → Nat → Span),
      (c0 ≠ px % 256 ∨ c1 ≠ py % 256) →
      parseRecords ty ((x, y) :: ps) (c0 :: c1 :: bs) px py tbl = none) := by
  constructor
  · intro b rest hb
    obtain ⟨n, rfl⟩ : ∃ n, b = n + 4 := ⟨b - 4, by omega⟩
    rcases rest with _ | ⟨m0, _ | ⟨m1, _ | ⟨m2, _ | ⟨m3, _ | ⟨n0, _ | ⟨n1, rest⟩⟩⟩⟩⟩⟩ <;> rfl
  · intro ty x y ps c0 c1 bs px py tbl h
    simp only [parseRecords]
    rw [if_neg (by tauto)]

theorem c8_parser_abandons_witness :
    readFile [4] = none ∧
    parseRecords 0 [(0, 0)] [9, 9] 0 0 (fun _ _ _ => ⟨false, 0, 0⟩) = none :=
  ⟨c8_parser_abandons.1 4 [] (by decide),
   c8_parser_abandons.2 0 0 0 [] 9 9 [] 0 0 (fun _ _ _ => ⟨false, 0, 0⟩)
     (Or.inl (by decide))⟩

/-- The span-table reads of one testSlope run of main.cpp: starting from
the normalized top scanline, while y < y1 the loop computes the span
columns, swaps them when the slope is negative, skips the scanline when
the (swapped) start column is ≥ 256 (`continue`), stops at y = 192
(`break`), and otherwise reads data.lines[testY][testX].spans[y].  The
returned list holds the (testY, testX, y) triples of those reads; fuel is
the iteration count (y1 - y).toNat. -/
def spanAccesses (sl : Slope) (tX tY : Int) : Nat → Int → Int → List (Int × Int × Int)
  | 0, _, _ => []
  | fuel + 1, y, y1 =>
    if y < y1 then
      if 256 ≤ (if sl.negative then sl.xEnd y else sl.xStart y) then
        spanAccesses sl tX tY fuel (y + 1) y1
      else if y = 192 then []
      else (tY, tX, y) :: spanAccesses sl tX tY fuel (y + 1) y1
    else []

/-- testSlope of main.cpp reduced to its captured-table accesses: the
top-to-bottom swap, the y0 == y1 ⇒ y1+1 widening, Slope::Setup, and the
scan loop. -/
def testSlopeAccesses (tX tY x0 y0 x1 y1 : Int) : List (Int × Int × Int) :=
  let xa := if y0 > y1 then x1 else x0
  let ya := if y0 > y1 then y1 else y0
  let xb := if y0 > y1 then x0 else x1
  let yb0 := if y0 > y1 then y0 else y1
  let yb := if ya = yb0 then yb0 + 1 else yb0
  spanAccesses (Slope.setup xa ya xb yb) tX tY (yb - ya).toNat ya yb

theorem spanAccesses_mem (sl : Slope) (tX tY : Int) (fuel : Nat) :
    ∀ (y y1 : Int), ∀ e ∈ spanAccesses sl tX tY fuel y y1,
      e.1 = tY ∧ e.2.1 = tX ∧ y ≤ e.2.2 ∧ e.2.2 < y1 ∧ e.2.2 ≠ 192 := by
  induction fuel with
  | zero =>
    intro y y1 e he
    simp [spanAccesses] at he
  | succ n ih =>
    intro y y1 e he
    rw [spanAccesses] at he
    by_cases h1 : y < y1
    · rw [if_pos h1] at he
      by_cases hskip : 256 ≤ (if sl.negative then sl.xEnd y else sl.xStart y)
      · rw [if_pos hskip] at he
        have := ih (y + 1) y1 e he
        exact ⟨this.1, this.2.1, by omega, this.2.2.2⟩
      · rw [if_neg hskip] at he
        by_cases h192 : y = 192
        · rw [if_pos h192] at he
          simp at he
        · rw [if_neg h192] at he
          rcases List.mem_cons.mp he with rfl | he2
          · exact ⟨rfl, rfl, le_refl y, h1, h192⟩
          · have := ih (y + 1) y1 e he2
            exact ⟨this.1, this.2.1, by omega, this.2.2.2⟩
    · rw [if_neg h1] at he
      simp at he

/-- C10: for every anchor of test() and every sweep pair the batch driver
generates (x1 ∈ [0,256], y1 ∈ [0,192]), every read of the captured-span
table lines[testY][testX].spans[y] is in bounds for the 193 × 257 × 192
table: the scanline index never reaches 192 (the y == 192 break and the
start ≥ 256 skip fire before the access on the extra scanline created by
the y0 == y1 ⇒ y1+1 widening), and the sweep indices stay below 193 and
257. -/
theorem c10_table_accesses_in_bounds (x0 y0 x1 y1 : Int)
    (hanchor : (x0, y0) ∈ [((0 : Int), (0 : Int)), (256, 0), (0, 192), (256, 192)])
    (hx1 : 0 ≤ x1) (hx1' : x1 ≤ 256) (hy1 : 0 ≤ y1) (hy1' : y1 ≤ 192) :
    ∀ e ∈ testSlopeAccesses x1 y1 x0 y0 x1 y1,
      0 ≤ e.1 ∧ e.1 < 193 ∧ 0 ≤ e.2.1 ∧ e.2.1 < 257 ∧ 0 ≤ e.2.2 ∧ e.2.2 < 192 := by
  have hx0 : 0 ≤ x0 ∧ x0 ≤ 256 ∧ 0 ≤ y0 ∧ y0 ≤ 192 := by
    simp only [List.mem_cons, List.not_mem_nil, or_false, Prod.mk.injEq] at hanchor
    rcases hanchor with ⟨rfl, rfl⟩ | ⟨rfl, rfl⟩ | ⟨rfl, rfl⟩ | ⟨rfl, rfl⟩ <;> norm_num
  intro e he
  simp only [testSlopeAccesses] at he
  have hb := spanAccesses_mem _ _ _ _ _ _ e he
  obtain ⟨h1, h2, h3, h4, h5⟩ := hb
  subst h1
  subst h2
  refine ⟨by omega, by omega, by omega, by omega, ?_, ?_⟩
  · split_ifs at h3 <;> omega
  · split_ifs at h4 <;> omega

theorem c10_table_accesses_in_bounds_witness :
    0 ≤ ((49 : Int), (69 : Int), (0 : Int)).1 ∧ ((49 : Int), (69 : Int), (0 : Int)).1 < 193 ∧
    0 ≤ ((49 : Int), (69 : Int), (0 : Int)).2.1 ∧ ((49 : Int), (69 : Int), (0 : Int)).2.1 < 257 ∧
    0 ≤ ((49 : Int), (69 : Int), (0 : Int)).2.2 ∧ ((49 : Int), (69 : Int), (0 : Int)).2.2 < 192 :=
  c10_table_accesses_in_bounds 0 0 69 49 (by decide) (by decide) (by decide)
    (by decide) (by decide) (49, 69, 0) (by decide)

end NDS
